import Mathlib

/-!
Verification of the expense-tracker server handlers.

Shallow embedding of the server-side handlers of the expense-tracker
monorepo (AWS Lambda + MongoDB).  Instants are modelled as normalized UTC
broken-down time (the Lambda runtime's timezone is UTC, so the local-time
accessors `getHours`/`getMinutes`/`getSeconds` used by the report handlers
coincide with the UTC ones).  Mongo `ObjectId`s are modelled as naturals;
the `ObjectId` string-parse failure branches (`400 invalid_id` /
`invalid_category_id`) are dropped by taking ids already parsed.
Collections are lists of documents; each handler is a pure function from
its parsed request data and the database state to a response (status code,
error tag, optional body) and the new database state.
-/

namespace ExpenseTracker

/-- A UTC instant in normalized broken-down form, as produced by the
`getUTC*` accessors of a valid JavaScript `Date`.  `month` is 1-based
(1..12), matching Mongo's `$month`; JavaScript's 0-based `getUTCMonth()`
is `month - 1`. -/
structure Instant where
  year : Int
  month : Nat
  day : Nat
  hour : Nat
  minute : Nat
  second : Nat
  ms : Nat
deriving DecidableEq, Repr

/-- Leap-year rule of the proleptic Gregorian calendar (what `Date.UTC`
uses). -/
def isLeapYear (y : Int) : Bool :=
  (y % 4 == 0 && y % 100 != 0) || (y % 400 == 0)

/-- Number of days in a month (1-based month). -/
def daysInMonth (y : Int) (m : Nat) : Nat :=
  if m = 2 then (if isLeapYear y then 29 else 28)
  else if m = 4 ∨ m = 6 ∨ m = 9 ∨ m = 11 then 30
  else 31

/-- An `Instant` whose fields are in range (what an actual `Date` yields). -/
def Instant.Valid (d : Instant) : Prop :=
  1 ≤ d.month ∧ d.month ≤ 12 ∧ 1 ≤ d.day ∧ d.day ≤ daysInMonth d.year d.month ∧
    d.hour < 24 ∧ d.minute < 60 ∧ d.second < 60 ∧ d.ms < 1000

instance (d : Instant) : Decidable d.Valid := by
  unfold Instant.Valid; infer_instance

/-- Strict chronological order on normalized instants: lexicographic on
(year, month, day, hour, minute, second, ms). -/
def Instant.ltb (a b : Instant) : Bool :=
  if a.year ≠ b.year then a.year < b.year
  else if a.month ≠ b.month then a.month < b.month
  else if a.day ≠ b.day then a.day < b.day
  else if a.hour ≠ b.hour then a.hour < b.hour
  else if a.minute ≠ b.minute then a.minute < b.minute
  else if a.second ≠ b.second then a.second < b.second
  else a.ms < b.ms

/-- Chronological `≤` on normalized instants. -/
def Instant.leb (a b : Instant) : Bool :=
  a == b || a.ltb b

/-- Models `setUTCDate(getUTCDate() + 1)`: advance one calendar day, keeping the
time of day, rolling over month/year boundaries as `Date` does. -/
def Instant.nextUTCDay (d : Instant) : Instant :=
  if d.day + 1 ≤ daysInMonth d.year d.month then
    { d with day := d.day + 1 }
  else if d.month + 1 ≤ 12 then
    { d with month := d.month + 1, day := 1 }
  else
    { d with year := d.year + 1, month := 1, day := 1 }

/-- Models `new Date(Date.UTC(d.getUTCFullYear(), d.getUTCMonth(), 1))`: midnight
UTC on the first day of the instant's UTC month. -/
def Instant.monthStart (d : Instant) : Instant :=
  ⟨d.year, d.month, 1, 0, 0, 0, 0⟩

/-- A (year, 1-based month) pair from a possibly out-of-range total month
count, as `Date.UTC(year, month0, 1)` normalizes its 0-based month
argument.  `t` is `year * 12 + month0`. -/
def normKey (t : Int) : Int × Nat :=
  (t / 12, (t % 12).toNat + 1)

/-- Models `Date.UTC(y, m0, 1)` month normalization, `m0` 0-based and possibly
out of range. -/
def normMonth (y m0 : Int) : Int × Nat :=
  normKey (y * 12 + m0)

/-- First-of-month midnight UTC instant for a (year, 1-based month) key. -/
def keyStart (k : Int × Nat) : Instant :=
  ⟨k.1, k.2, 1, 0, 0, 0, 0⟩

/-- A JavaScript number as far as the handlers observe it: either NaN or a
rational.  (`Number(string)` of a non-numeric string is NaN; infinities
never reach a branch where they behave differently from a large rational
in the code modelled here.) -/
inductive JSNum where
  | nan
  | num (q : ℚ)
deriving DecidableEq, Repr

/-- Models `Math.min`: NaN-propagating minimum. -/
def jsMin (a b : JSNum) : JSNum :=
  match a, b with
  | .nan, _ => .nan
  | _, .nan => .nan
  | .num x, .num y => .num (min x y)

/-- Models `Math.max`: NaN-propagating maximum. -/
def jsMax (a b : JSNum) : JSNum :=
  match a, b with
  | .nan, _ => .nan
  | _, .nan => .nan
  | .num x, .num y => .num (max x y)

/-- ECMAScript `ToIntegerOrInfinity` on a finite number: truncation toward
zero (used by `Date.UTC` on its arguments). -/
def jsTrunc (q : ℚ) : Int :=
  if 0 ≤ q then ⌊q⌋ else ⌈q⌉

/-- Number of iterations of `for (let i = 0; i < m; i++)`: the number of
naturals below `m`; a NaN bound yields zero iterations. -/
def loopLen (m : JSNum) : Nat :=
  match m with
  | .nan => 0
  | .num q => ⌈q⌉₊

/-- An expense's stored category reference.  The cascade in
`deleteCategory` notes the reference "might be stored as ObjectId or as
string", so both encodings of an id appear, next to `null`. -/
inductive CatRef where
  | oid (n : Nat)
  | strid (n : Nat)
  | null
deriving DecidableEq, Repr

/-- Models `expenses` collection document (fields the handlers read or write). -/
structure Expense where
  id : Nat
  userId : Nat
  amount : ℚ
  currency : String
  description : String
  category : String
  categoryId : CatRef
  date : Instant
deriving DecidableEq, Repr

/-- Models `categories` collection document. `userId = none` is a global/shared
category. -/
structure Category where
  id : Nat
  name : String
  color : Option String
  userId : Option Nat
deriving DecidableEq, Repr

/-- Models `budgets` collection document. -/
structure Budget where
  id : Nat
  userId : Nat
  categoryId : Option Nat
  category : String
  periodStart : Instant
  amount : ℚ
  createdAt : Instant
  updatedAt : Option Instant
deriving DecidableEq, Repr

/-- The database state the modelled handlers touch. -/
structure Db where
  categories : List Category
  expenses : List Expense
  budgets : List Budget
deriving DecidableEq, Repr

/-- Response shape: HTTP status, the `error` tag of a JSON error body, and
an optional plain-text body (used by the CSV export). -/
structure Response where
  status : Nat
  error : Option String := none
  body : Option String := none
deriving DecidableEq, Repr

/-- Remove the first element matching `p` (Mongo `deleteOne`). -/
def removeFirst (p : α → Bool) : List α → List α
  | [] => []
  | x :: xs => if p x then xs else x :: removeFirst p xs

/-- Update the first element matching `p` (Mongo `findOneAndUpdate`). -/
def updateFirst (p : α → Bool) (f : α → α) : List α → List α
  | [] => []
  | x :: xs => if p x then f x :: xs else x :: updateFirst p f xs

/-- ASCII lower-casing of a character code. -/
def lowerCode (n : Nat) : Nat :=
  if 65 ≤ n ∧ n ≤ 90 then n + 32 else n

/-- Case-insensitive name equality, modelling the `collation { locale: "en",
strength: 2 }` lookup of `createCategory` (ASCII case folding). -/
def ciEq (s t : String) : Bool :=
  s.data.map (fun c => lowerCode c.toNat) == t.data.map fun c => lowerCode c.toNat

/-- Models `String.prototype.trim()`: strip whitespace from both ends. -/
def jsTrim (s : String) : String :=
  String.mk
    (((s.data.dropWhile Char.isWhitespace).reverse.dropWhile Char.isWhitespace).reverse)

/-- Models `POST /api/categories` (`createCategoryImpl`): reject, with 409, a name
already used (case-insensitively) by a global category or one of the
requesting user's categories; otherwise insert a user-owned category.
`rawName` is trimmed first; `freshId` is the id Mongo assigns. -/
def createCategoryImpl (uid : Nat) (rawName : String) (color : Option String)
    (db : Db) (freshId : Nat) : Response × Db :=
  match db.categories.find? fun c =>
      ciEq c.name (jsTrim rawName) && (c.userId == none || c.userId == some uid) with
  | some _ => (⟨409, some "category_exists", none⟩, db)
  | none =>
      (⟨201, none, none⟩,
        { db with categories :=
            db.categories ++ [⟨freshId, jsTrim rawName, color, some uid⟩] })

/-- Whether an expense's stored reference points at category id `cid`,
in either encoding — the cascade's `$or: [{categoryId: catId},
{categoryId: String(catId)}]`. -/
def refersTo (cid : Nat) (r : CatRef) : Bool :=
  r == CatRef.oid cid || r == CatRef.strid cid

/-- Models `DELETE /api/categories/{id}` (`deleteCategoryImpl`): `deleteOne` on
`{_id: catId, userId}` — 404 when nothing matched — then cascade-update
every expense (of any user) whose `categoryId` is the deleted id, as
ObjectId or string, to `categoryId = null`, `category = "Uncategorized"`. -/
def deleteCategoryImpl (uid : Nat) (catId : Nat) (db : Db) : Response × Db :=
  if db.categories.any fun c => c.id == catId && c.userId == some uid then
    (⟨204, none, none⟩,
      { db with
        categories :=
          removeFirst (fun c => c.id == catId && c.userId == some uid) db.categories
        expenses := db.expenses.map fun e =>
          if refersTo catId e.categoryId then
            { e with categoryId := CatRef.null, category := "Uncategorized" }
          else e })
  else
    (⟨404, some "not_found", none⟩, db)

/-- Models `POST /api/budgets` (`createBudgetImpl`).  `categoryId = none` models a
missing/empty `categoryId` (the handler's `!categoryId || typeof !== "string"
|| trim === ""` check); `periodStart = none` models a falsy `periodStart`.
The `category` body field only seeds `resolvedCategoryName`, which the
mandatory category lookup always overwrites, so that dead seed is dropped
here.  `freshId` is the id Mongo assigns to the inserted document. -/
def createBudgetImpl (uid : Nat) (categoryId : Option Nat) (category : Option String)
    (periodStart : Option Instant) (amount : ℚ) (now : Instant) (db : Db)
    (freshId : Nat) : Response × Db :=
  match categoryId with
  | none => (⟨400, some "missing_category", none⟩, db)
  | some cid =>
      match db.categories.find? fun c =>
          c.id == cid && (c.userId == some uid || c.userId == none) with
      | none => (⟨400, some "invalid_category", none⟩, db)
      | some cat =>
          match periodStart with
          | none => (⟨400, some "invalid_period", none⟩, db)
          | some pd =>
              if db.budgets.any fun b =>
                  b.userId == uid && b.categoryId == some cid &&
                    b.periodStart == pd.monthStart then
                (⟨409, some "budget_exists", none⟩, db)
              else
                (⟨201, none, none⟩,
                  { db with budgets := db.budgets ++
                      [{ id := freshId, userId := uid, categoryId := some cid
                         category := cat.name
                         periodStart := pd.monthStart, amount := amount
                         createdAt := now, updatedAt := none }] })

/-- Parsed `PUT /api/budgets/{id}` body: each field may be absent.
`categoryId = some none` is an explicit JSON `null`. -/
structure BudgetUpdates where
  amount : Option ℚ := none
  categoryId : Option (Option Nat) := none
  category : Option String := none
  periodStart : Option Instant := none
deriving DecidableEq, Repr

/-- The `$set` payload `updateBudgetImpl` accumulates (`updatedAt` is always
set and is carried separately). -/
structure BudgetSetPayload where
  amount : Option ℚ := none
  categoryId : Option (Option Nat) := none
  category : Option String := none
  periodStart : Option Instant := none
deriving DecidableEq, Repr

/-- Category resolution step of `updateBudgetImpl`: the
`categoryId` / `else-if category` branches, which may fail with
`400 invalid_category`. -/
def resolveBudgetUpdates (uid : Nat) (updates : BudgetUpdates) (db : Db) :
    Except Response BudgetSetPayload :=
  match updates.categoryId with
  | some none =>
      .ok { amount := updates.amount, categoryId := some none
            category := some "Uncategorized" }
  | some (some c) =>
      match db.categories.find? fun cat =>
          cat.id == c && (cat.userId == some uid || cat.userId == none) with
      | none => .error ⟨400, some "invalid_category", none⟩
      | some cat =>
          .ok { amount := updates.amount, categoryId := some (some cat.id)
                category := some cat.name }
  | none =>
      match updates.category with
      | some nm =>
          match (db.categories.find? fun cat =>
                cat.name == nm && cat.userId == some uid).orElse fun _ =>
              db.categories.find? fun cat => cat.name == nm && cat.userId == none with
          | some cat =>
              .ok { amount := updates.amount, categoryId := some (some cat.id)
                    category := some cat.name }
          | none =>
              .ok { amount := updates.amount, categoryId := some none
                    category := some nm }
      | none => .ok { amount := updates.amount }

/-- The `periodStart` step of `updateBudgetImpl`'s `$set` payload build: a
supplied `periodStart` is canonicalized to the UTC month start.  (The
invalid-date branch is dropped: `periodStart` arrives as an already-valid
instant.) -/
def mergePeriod (updates : BudgetUpdates) (p : BudgetSetPayload) : BudgetSetPayload :=
  match updates.periodStart with
  | some ps => { p with periodStart := some ps.monthStart }
  | none => p

/-- Models `updateBudgetImpl`'s uniqueness check: only when a non-null `categoryId`
landed in the `$set` payload, look for another budget (`_id ≠ bid`) of the
same user with that `categoryId` — `periodStart` is not part of the
filter. -/
def budgetClash (uid bid : Nat) (payload : BudgetSetPayload) (db : Db) : Bool :=
  match payload.categoryId with
  | some (some c) =>
      db.budgets.any fun b =>
        b.id != bid && b.userId == uid && b.categoryId == some c
  | _ => false

/-- Apply the `$set` payload to a budget document (`updatedAt` is always
set). -/
def applyBudgetSet (payload : BudgetSetPayload) (now : Instant) (b : Budget) :
    Budget :=
  { b with
    amount := payload.amount.getD b.amount
    categoryId := payload.categoryId.getD b.categoryId
    category := payload.category.getD b.category
    periodStart := payload.periodStart.getD b.periodStart
    updatedAt := some now }

/-- Models `PUT /api/budgets/{id}` (`updateBudgetImpl`): build the `$set` payload,
run `budgetClash`, then `findOneAndUpdate {_id, userId}` (404 when no
document matched). -/
def updateBudgetImpl (uid : Nat) (bid : Nat) (updates : BudgetUpdates)
    (now : Instant) (db : Db) : Response × Db :=
  if updates = {} then (⟨400, some "no_updates", none⟩, db)
  else
    match resolveBudgetUpdates uid updates db with
    | .error r => (r, db)
    | .ok p =>
        if budgetClash uid bid (mergePeriod updates p) db then
          (⟨409, some "budget_exists", none⟩, db)
        else if db.budgets.any fun b => b.id == bid && b.userId == uid then
          (⟨200, none, none⟩,
            { db with budgets :=
                (updateFirst (fun b => b.id == bid && b.userId == uid)
                  (applyBudgetSet (mergePeriod updates p) now) db.budgets) })
        else (⟨404, some "not_found", none⟩, db)

/-- Models `DELETE /api/budgets/{id}` (`deleteBudgetImpl`): `deleteOne` on
`{_id, userId}`, 404 when nothing matched. -/
def deleteBudgetImpl (uid : Nat) (bid : Nat) (db : Db) : Response × Db :=
  let target := fun (b : Budget) => b.id == bid && b.userId == uid
  if db.budgets.any target then
    (⟨200, none, none⟩, { db with budgets := removeFirst target db.budgets })
  else (⟨404, some "not_found", none⟩, db)

/-- The `to`-inclusive end bound shared by `reportsByCategoryImpl` and
`expensesExportImpl`: when `to` falls at `00:00:00` (hours, minutes and
seconds all zero — the runtime timezone is UTC) advance it by one day,
otherwise use it as given. -/
def advanceMidnightEnd (toDate : Instant) : Instant :=
  if toDate.hour = 0 ∧ toDate.minute = 0 ∧ toDate.second = 0 then
    toDate.nextUTCDay
  else toDate

/-- The `$match` / `find` filter of the category report and the CSV export:
the user's expenses with `from ≤ date < advanceMidnightEnd to`. -/
def rangeMatch (uid : Nat) (fromDate toDate : Instant) (e : Expense) : Bool :=
  e.userId == uid && fromDate.leb e.date && e.date.ltb (advanceMidnightEnd toDate)

/-- One output row of the category report. -/
structure CategoryRow where
  categoryId : CatRef
  category : String
  totalUSD : ℚ
  totalNGN : ℚ
  totalAll : ℚ
deriving DecidableEq, Repr

/-- Models `GET /api/reports/by-category` (`reportsByCategoryImpl`): group the
matching expenses by (categoryId, category), sum per-currency totals via
`$cond`, sort descending by combined total.  (The `$project` that drops
`totalAll` from the response is left implicit.) -/
def reportsByCategoryImpl (uid : Nat) (fromDate toDate : Instant)
    (es : List Expense) : List CategoryRow :=
  let matched := es.filter (rangeMatch uid fromDate toDate)
  let keys := (matched.map fun e => (e.categoryId, e.category)).dedup
  let rows := keys.map fun k =>
    let grp := matched.filter fun e => (e.categoryId, e.category) == k
    { categoryId := k.1, category := k.2
      totalUSD := (grp.map fun e => if e.currency == "USD" then e.amount else 0).sum
      totalNGN := (grp.map fun e => if e.currency == "NGN" then e.amount else 0).sum
      totalAll := (grp.map Expense.amount).sum : CategoryRow }
  rows.mergeSort fun a b => decide (b.totalAll ≤ a.totalAll)

/-- One CSV cell: escape double quotes, and wrap in quotes when the value
contains a comma, quote, newline or CR. -/
def csvCell (s : String) : String :=
  let escaped := s.replace "\"" "\"\""
  if s.contains ',' || s.contains '"' || s.contains '\n' || s.contains '\r' then
    "\"" ++ escaped ++ "\""
  else escaped

/-- Models `toCSVRow`: cells joined with `", "` (comma + space). -/
def toCSVRow (cells : List String) : String :=
  String.intercalate ", " (cells.map csvCell)

/-- Left-pad a natural to two digits. -/
def pad2 (n : Nat) : String :=
  if n < 10 then "0" ++ toString n else toString n

/-- Left-pad a year to four digits (`toISOString` year field for years in
0..9999, the only ones this application stores). -/
def pad4 (y : Int) : String :=
  let s := toString y.toNat
  String.mk (List.replicate (4 - s.length) '0') ++ s

/-- Models `formatDateOnlyUTC`: `toISOString().slice(0, 10)`, i.e. `YYYY-MM-DD`
in UTC. -/
def formatDateOnlyUTC (d : Instant) : String :=
  pad4 d.year ++ "-" ++ pad2 d.month ++ "-" ++ pad2 d.day

/-- Insert a `','` before every fourth digit, counting from the right;
the input is the reversed digit list, `k` the digits already emitted. -/
def commifyRev : List Char → Nat → List Char
  | [], _ => []
  | c :: cs, k =>
      if k = 3 then ',' :: c :: commifyRev cs 1
      else c :: commifyRev cs (k + 1)

/-- Models `formatAmount`: `Intl.NumberFormat("en-US")` with two fraction digits —
round to cents (half away from zero) and group the integer part with
thousands separators. -/
def formatAmount (q : ℚ) : String :=
  let cents : Nat := (⌊|q| * 100 + 1 / 2⌋).toNat
  let sign := if q < 0 ∧ cents ≠ 0 then "-" else ""
  let ip := cents / 100
  let fp := cents % 100
  sign ++ String.mk ((commifyRev (toString ip).data.reverse 0).reverse) ++
    "." ++ pad2 fp

/-- Models `MAX_ROWS`: safe threshold for the inline CSV export. -/
def MAX_ROWS : Nat := 5000

/-- Models `GET /api/reports/expenses/export` (`expensesExportImpl`): reject a
non-csv format; fetch the user's expenses in the (to-inclusive) range,
sorted by date descending, limited to `MAX_ROWS + 1`; reject with 413 when
more than `MAX_ROWS` came back; otherwise build the CSV (header row, a
blank spacer row after every row) prefixed with a UTF-8 BOM. -/
def expensesExportImpl (uid : Nat) (fromDate toDate : Instant) (format : String)
    (es : List Expense) : Response :=
  if format ≠ "csv" then ⟨400, some "unsupported_format", none⟩
  else if (((es.filter (rangeMatch uid fromDate toDate)).mergeSort fun a b =>
      b.date.leb a.date).take (MAX_ROWS + 1)).length > MAX_ROWS then
    ⟨413, some "too_large", none⟩
  else
    ⟨200, none, some ("\uFEFF" ++ String.intercalate "\n"
      (toCSVRow ["Date", "Description", "Category", "Amount"] :: "" ::
        (((es.filter (rangeMatch uid fromDate toDate)).mergeSort fun a b =>
            b.date.leb a.date).take (MAX_ROWS + 1)).flatMap fun d =>
          [toCSVRow [formatDateOnlyUTC d.date, d.description, d.category,
            formatAmount d.amount], ""]))⟩

/-- One row of the trends aggregation: expenses grouped by
(`$year`, `$month`, currency) with summed amount. -/
structure AggRow where
  year : Int
  month : Nat
  currency : String
  total : ℚ
deriving DecidableEq, Repr

/-- The `$group` stage of the trends pipeline over the already-`$match`ed
expenses, `$sort`ed by (year, month) ascending. -/
def aggRows (es : List Expense) : List AggRow :=
  (((es.map fun e => (e.date.year, e.date.month, e.currency)).dedup).map fun k =>
    { year := k.1, month := k.2.1, currency := k.2.2
      total := ((es.filter fun e =>
        (e.date.year, e.date.month, e.currency) == k).map Expense.amount).sum :
      AggRow }).mergeSort fun a b =>
    a.year < b.year || (a.year == b.year && a.month ≤ b.month)

/-- One bucket of the trends series.  The source keys buckets by the string
`` `${y}-${String(m).padStart(2, "0")}` ``; since the padded form is
injective on (year, 1..12 month) pairs, the key is modelled as the pair
itself. -/
structure TrendBucket where
  month : Int × Nat
  totalUSD : ℚ
  totalNGN : ℚ
deriving DecidableEq, Repr

/-- Lookup in the insertion-ordered map (JS `Map.get`). -/
def mapGet : List ((Int × Nat) × TrendBucket) → (Int × Nat) → Option TrendBucket
  | [], _ => none
  | (k', v) :: rest, k => if k' == k then some v else mapGet rest k

/-- JS `Map.set`: overwrite in place when the key exists, append otherwise. -/
def mapSet : List ((Int × Nat) × TrendBucket) → (Int × Nat) → TrendBucket →
    List ((Int × Nat) × TrendBucket)
  | [], k, v => [(k, v)]
  | (k', v') :: rest, k, v =>
      if k' == k then (k, v) :: rest else (k', v') :: mapSet rest k v

/-- Add an aggregation row's total to the bucket slot matching its currency
(rows of other currencies leave the bucket unchanged). -/
def addCurrency (r : AggRow) (b : TrendBucket) : TrendBucket :=
  if r.currency == "USD" then { b with totalUSD := b.totalUSD + r.total }
  else if r.currency == "NGN" then { b with totalNGN := b.totalNGN + r.total }
  else b

/-- One step of the reformatting loop: ensure the bucket for the row's
(year, month) key exists (zero bucket otherwise), then `addCurrency`. -/
def trendFold (m : List ((Int × Nat) × TrendBucket)) (r : AggRow) :
    List ((Int × Nat) × TrendBucket) :=
  mapSet m (r.year, r.month)
    (addCurrency r ((mapGet m (r.year, r.month)).getD ⟨(r.year, r.month), 0, 0⟩))

/-- The `months` query parameter after the schema transform and the
`Math.max(1, Math.min(24, monthsRaw))` clamp.  `none` models an absent (or
empty, hence falsy) parameter, which defaults to 6; a supplied value is
whatever `Number(string)` produced, possibly NaN. -/
def effMonths (monthsRaw : Option JSNum) : JSNum :=
  match monthsRaw with
  | none => jsMax (.num 1) (jsMin (.num 24) (.num 6))
  | some v => jsMax (.num 1) (jsMin (.num 24) v)

/-- The window start of the trends report:
`Date.UTC(now.getUTCFullYear(), now.getUTCMonth() - (months - 1), 1)` as a
(year, month) key. -/
def trendStartKey (now : Instant) (q : ℚ) : Int × Nat :=
  normMonth now.year (jsTrunc ((now.month : ℚ) - 1 - (q - 1)))

/-- The `$match` stage of the trends pipeline: the user's expenses dated at
or after the window start. -/
def trendMatched (uid : Nat) (startDate : Instant) (es : List Expense) :
    List Expense :=
  es.filter fun e => e.userId == uid && startDate.leb e.date

/-- The reformatting `Map`, built by folding the aggregation rows. -/
def trendMap (es : List Expense) : List ((Int × Nat) × TrendBucket) :=
  (aggRows es).foldl trendFold []

/-- Models `GET /api/reports/trends` (`reportsTrendsImpl`): clamp `months`,
compute the window start `Date.UTC(y, m0 - (months - 1), 1)`, aggregate the
user's expenses with `date ≥ start` by (year, month, currency), fold the
rows into a keyed map, and emit one bucket per window month (zero-filled
when absent from the map).  With a NaN `months` the `for` loop body never
runs and the start date is invalid, so the series is empty. -/
def reportsTrendsImpl (uid : Nat) (monthsRaw : Option JSNum) (now : Instant)
    (es : List Expense) : List TrendBucket :=
  match effMonths monthsRaw with
  | .nan => []
  | .num q =>
      (List.range (loopLen (.num q))).map fun (i : Nat) =>
        (mapGet
          (trendMap (trendMatched uid (keyStart (trendStartKey now q)) es))
          (normMonth (trendStartKey now q).1
            (((trendStartKey now q).2 : Int) - 1 + i))).getD
          ⟨normMonth (trendStartKey now q).1
            (((trendStartKey now q).2 : Int) - 1 + i), 0, 0⟩

/-! ## Helper lemmas -/

theorem mem_removeFirst {p : α → Bool} {l : List α} {x : α}
    (h : x ∈ removeFirst p l) : x ∈ l := by
  induction l with
  | nil => simpa [removeFirst] using h
  | cons y ys ih =>
      by_cases hy : p y
      · simp only [removeFirst, if_pos hy] at h
        exact List.mem_cons_of_mem _ h
      · simp only [removeFirst, if_neg hy, List.mem_cons] at h
        rcases h with h | h
        · exact h ▸ List.mem_cons_self _ _
        · exact List.mem_cons_of_mem _ (ih h)

theorem mem_updateFirst {p : α → Bool} {f : α → α} {l : List α} {x : α}
    (h : x ∈ updateFirst p f l) : x ∈ l ∨ ∃ y ∈ l, p y = true ∧ x = f y := by
  induction l with
  | nil => simpa [updateFirst] using h
  | cons y ys ih =>
      by_cases hy : p y
      · simp only [updateFirst, if_pos hy, List.mem_cons] at h
        rcases h with h | h
        · exact Or.inr ⟨y, List.mem_cons_self _ _, hy, h⟩
        · exact Or.inl (List.mem_cons_of_mem _ h)
      · simp only [updateFirst, if_neg hy, List.mem_cons] at h
        rcases h with h | h
        · exact Or.inl (h ▸ List.mem_cons_self _ _)
        · rcases ih h with h' | ⟨z, hz, hpz, hx⟩
          · exact Or.inl (List.mem_cons_of_mem _ h')
          · exact Or.inr ⟨z, List.mem_cons_of_mem _ hz, hpz, hx⟩

theorem updateFirst_hits {p : α → Bool} {f : α → α} {l : List α}
    (h : l.any p = true) : ∃ y ∈ l, p y = true ∧ f y ∈ updateFirst p f l := by
  induction l with
  | nil => simp at h
  | cons x xs ih =>
      by_cases hx : p x
      · exact ⟨x, List.mem_cons_self _ _, hx, by
          simp only [updateFirst, if_pos hx]; exact List.mem_cons_self _ _⟩
      · simp only [List.any_cons, hx, Bool.false_or] at h
        obtain ⟨y, hy, hpy, hmem⟩ := ih h
        exact ⟨y, List.mem_cons_of_mem _ hy, hpy, by
          simp only [updateFirst, if_neg hx]; exact List.mem_cons_of_mem _ hmem⟩

/-! ## C5 and C10: category delete cascade -/

/-- C5: when a category deletion succeeds, every expense referencing the
deleted category is reassigned to `categoryId = null`,
`category = "Uncategorized"`, and no expense of the resulting state still
references the deleted category. -/
theorem deleteCategory_cascades_to_uncategorized (uid catId : Nat) (db : Db)
    (hsucc : (deleteCategoryImpl uid catId db).1.status = 204) :
    (∀ e ∈ db.expenses, refersTo catId e.categoryId = true →
      { e with categoryId := CatRef.null, category := "Uncategorized" } ∈
        (deleteCategoryImpl uid catId db).2.expenses) ∧
    (∀ e ∈ (deleteCategoryImpl uid catId db).2.expenses,
      refersTo catId e.categoryId = false) := by
  unfold deleteCategoryImpl at hsucc ⊢
  by_cases h : (db.categories.any fun c => c.id == catId && c.userId == some uid) = true
  · rw [if_pos h]
    constructor
    · intro e he hr
      exact List.mem_map.mpr ⟨e, he, by rw [if_pos hr]⟩
    · intro e' he'
      obtain ⟨e, _, rfl⟩ := List.mem_map.mp he'
      by_cases hr : refersTo catId e.categoryId = true
      · rw [if_pos hr]
        rfl
      · rw [if_neg hr]
        simpa using hr
  · rw [if_neg h] at hsucc
    simp at hsucc

/-- C5 witness. -/
theorem deleteCategory_cascades_to_uncategorized_witness :
    ((deleteCategoryImpl 7 3
        ⟨[⟨3, "Food", none, some 7⟩],
          [⟨1, 8, 5, "USD", "x", "Food", CatRef.strid 3, ⟨2024, 5, 15, 10, 30, 0, 0⟩⟩],
          []⟩).1.status = 204) ∧
    ((∀ e ∈ (⟨[⟨3, "Food", none, some 7⟩],
          [⟨1, 8, 5, "USD", "x", "Food", CatRef.strid 3, ⟨2024, 5, 15, 10, 30, 0, 0⟩⟩],
          []⟩ : Db).expenses, refersTo 3 e.categoryId = true →
      { e with categoryId := CatRef.null, category := "Uncategorized" } ∈
        (deleteCategoryImpl 7 3
          ⟨[⟨3, "Food", none, some 7⟩],
            [⟨1, 8, 5, "USD", "x", "Food", CatRef.strid 3, ⟨2024, 5, 15, 10, 30, 0, 0⟩⟩],
            []⟩).2.expenses) ∧
    (∀ e ∈ (deleteCategoryImpl 7 3
          ⟨[⟨3, "Food", none, some 7⟩],
            [⟨1, 8, 5, "USD", "x", "Food", CatRef.strid 3, ⟨2024, 5, 15, 10, 30, 0, 0⟩⟩],
            []⟩).2.expenses, refersTo 3 e.categoryId = false)) :=
  ⟨by decide, deleteCategory_cascades_to_uncategorized 7 3 _ (by decide)⟩

/-- C10: the cascade matches by category reference only — ObjectId or
string form, with no owner restriction — rewrites exactly the `categoryId`
and `category` fields of the matched expenses, leaves non-matching expenses
untouched, and does not touch the budgets collection. -/
theorem deleteCategory_cascade_frame (uid catId : Nat) (db : Db)
    (hsucc : (deleteCategoryImpl uid catId db).1.status = 204) :
    (deleteCategoryImpl uid catId db).2.expenses =
      db.expenses.map (fun e =>
        if e.categoryId = CatRef.oid catId ∨ e.categoryId = CatRef.strid catId then
          ⟨e.id, e.userId, e.amount, e.currency, e.description, "Uncategorized",
            CatRef.null, e.date⟩
        else e) ∧
    (deleteCategoryImpl uid catId db).2.budgets = db.budgets := by
  unfold deleteCategoryImpl at hsucc ⊢
  by_cases h : (db.categories.any fun c => c.id == catId && c.userId == some uid) = true
  · rw [if_pos h]
    refine ⟨List.map_congr_left fun e _ => ?_, rfl⟩
    by_cases hr : e.categoryId = CatRef.oid catId ∨ e.categoryId = CatRef.strid catId
    · have hb : refersTo catId e.categoryId = true := by
        simp only [refersTo, Bool.or_eq_true, beq_iff_eq]
        exact hr
      rw [if_pos hb, if_pos hr]
    · have hb : ¬refersTo catId e.categoryId = true := by
        simp only [refersTo, Bool.or_eq_true, beq_iff_eq]
        exact hr
      rw [if_neg hb, if_neg hr]
  · rw [if_neg h] at hsucc
    simp at hsucc

/-- C10 witness: a deletion by user 7 also rewrites an expense owned by
user 8 that references the category in string form. -/
theorem deleteCategory_cascade_frame_witness :
    ((deleteCategoryImpl 7 3
        ⟨[⟨3, "Food", none, some 7⟩],
          [⟨1, 8, 5, "USD", "x", "Food", CatRef.strid 3, ⟨2024, 5, 15, 10, 30, 0, 0⟩⟩,
           ⟨2, 8, 6, "NGN", "y", "Rent", CatRef.oid 4, ⟨2024, 5, 16, 10, 30, 0, 0⟩⟩],
          []⟩).1.status = 204) ∧
    ((deleteCategoryImpl 7 3
        ⟨[⟨3, "Food", none, some 7⟩],
          [⟨1, 8, 5, "USD", "x", "Food", CatRef.strid 3, ⟨2024, 5, 15, 10, 30, 0, 0⟩⟩,
           ⟨2, 8, 6, "NGN", "y", "Rent", CatRef.oid 4, ⟨2024, 5, 16, 10, 30, 0, 0⟩⟩],
          []⟩).2.expenses =
      (⟨[⟨3, "Food", none, some 7⟩],
          [⟨1, 8, 5, "USD", "x", "Food", CatRef.strid 3, ⟨2024, 5, 15, 10, 30, 0, 0⟩⟩,
           ⟨2, 8, 6, "NGN", "y", "Rent", CatRef.oid 4, ⟨2024, 5, 16, 10, 30, 0, 0⟩⟩],
          []⟩ : Db).expenses.map (fun e =>
        if e.categoryId = CatRef.oid 3 ∨ e.categoryId = CatRef.strid 3 then
          ⟨e.id, e.userId, e.amount, e.currency, e.description, "Uncategorized",
            CatRef.null, e.date⟩
        else e) ∧
      (deleteCategoryImpl 7 3
        ⟨[⟨3, "Food", none, some 7⟩],
          [⟨1, 8, 5, "USD", "x", "Food", CatRef.strid 3, ⟨2024, 5, 15, 10, 30, 0, 0⟩⟩,
           ⟨2, 8, 6, "NGN", "y", "Rent", CatRef.oid 4, ⟨2024, 5, 16, 10, 30, 0, 0⟩⟩],
          []⟩).2.budgets =
      (⟨[⟨3, "Food", none, some 7⟩],
          [⟨1, 8, 5, "USD", "x", "Food", CatRef.strid 3, ⟨2024, 5, 15, 10, 30, 0, 0⟩⟩,
           ⟨2, 8, 6, "NGN", "y", "Rent", CatRef.oid 4, ⟨2024, 5, 16, 10, 30, 0, 0⟩⟩],
          []⟩ : Db).budgets) :=
  ⟨by decide, deleteCategory_cascade_frame 7 3 _ (by decide)⟩

/-! ## C6: category name uniqueness per scope -/

/-- C6: category creation conflicts (409, state unchanged) exactly when a
global category or one of the user's categories already carries the same
name up to case; otherwise the user-owned category is inserted. -/
theorem createCategory_unique_per_scope (uid : Nat) (rawName : String)
    (color : Option String) (db : Db) (freshId : Nat) :
    ((∃ c ∈ db.categories, (c.userId = none ∨ c.userId = some uid) ∧
        ciEq c.name (jsTrim rawName) = true) →
      createCategoryImpl uid rawName color db freshId =
        (⟨409, some "category_exists", none⟩, db)) ∧
    ((∀ c ∈ db.categories, (c.userId = none ∨ c.userId = some uid) →
        ciEq c.name (jsTrim rawName) = false) →
      (createCategoryImpl uid rawName color db freshId).1.status = 201 ∧
      (createCategoryImpl uid rawName color db freshId).2.categories =
        db.categories ++ [⟨freshId, jsTrim rawName, color, some uid⟩]) := by
  unfold createCategoryImpl
  constructor
  · rintro ⟨c, hc, hscope, hci⟩
    have hfind : (db.categories.find? fun c =>
        ciEq c.name (jsTrim rawName) && (c.userId == none || c.userId == some uid)).isSome := by
      rw [List.find?_isSome]
      refine ⟨c, hc, ?_⟩
      rw [Bool.and_eq_true, Bool.or_eq_true, hci]
      refine ⟨rfl, ?_⟩
      rcases hscope with h | h <;> simp [h]
    obtain ⟨v, hv⟩ := Option.isSome_iff_exists.mp hfind
    rw [hv]
  · intro h
    have hfind : (db.categories.find? fun c =>
        ciEq c.name (jsTrim rawName) && (c.userId == none || c.userId == some uid)) = none := by
      rw [List.find?_eq_none]
      intro c hc
      rw [Bool.not_eq_true, Bool.and_eq_false_iff]
      by_cases hscope : c.userId = none ∨ c.userId = some uid
      · exact Or.inl (h c hc hscope)
      · rw [not_or] at hscope
        refine Or.inr ?_
        rw [Bool.or_eq_false_iff]
        constructor <;> simp [hscope.1, hscope.2]
    rw [hfind]
    exact ⟨rfl, rfl⟩

/-- C6 witness: the lookup is case-insensitive and scope is the union of
globals and the user's own categories. -/
theorem createCategory_unique_per_scope_witness :
    (∃ c ∈ (⟨[⟨3, "FOOD", none, none⟩], [], []⟩ : Db).categories,
      (c.userId = none ∨ c.userId = some 7) ∧ ciEq c.name (jsTrim "  food ") = true) ∧
    createCategoryImpl 7 "  food " none ⟨[⟨3, "FOOD", none, none⟩], [], []⟩ 9 =
      (⟨409, some "category_exists", none⟩, ⟨[⟨3, "FOOD", none, none⟩], [], []⟩) :=
  ⟨by decide, (createCategory_unique_per_scope 7 "  food " none
      ⟨[⟨3, "FOOD", none, none⟩], [], []⟩ 9).1 (by decide)⟩

/-! ## C1: budget uniqueness conflict checks -/

/-- C1 counterexample: an update that changes only `periodStart` runs no
conflict check at all — it returns 200 and leaves two budgets of user 7 with
the identical (userId, categoryId, periodStart) triple (category 3,
June 2024), which the claimed enforcement would have rejected with 409. -/
theorem budget_update_bypasses_period_uniqueness :
    (updateBudgetImpl 7 1 { periodStart := some ⟨2024, 6, 10, 0, 0, 0, 0⟩ }
        ⟨2024, 6, 15, 0, 0, 0, 0⟩
        ⟨[⟨3, "Food", none, some 7⟩], [],
          [⟨1, 7, some 3, "Food", ⟨2024, 5, 1, 0, 0, 0, 0⟩, 100,
              ⟨2024, 5, 1, 0, 0, 0, 0⟩, none⟩,
           ⟨2, 7, some 3, "Food", ⟨2024, 6, 1, 0, 0, 0, 0⟩, 200,
              ⟨2024, 5, 1, 0, 0, 0, 0⟩, none⟩]⟩).1.status = 200 ∧
    ((updateBudgetImpl 7 1 { periodStart := some ⟨2024, 6, 10, 0, 0, 0, 0⟩ }
        ⟨2024, 6, 15, 0, 0, 0, 0⟩
        ⟨[⟨3, "Food", none, some 7⟩], [],
          [⟨1, 7, some 3, "Food", ⟨2024, 5, 1, 0, 0, 0, 0⟩, 100,
              ⟨2024, 5, 1, 0, 0, 0, 0⟩, none⟩,
           ⟨2, 7, some 3, "Food", ⟨2024, 6, 1, 0, 0, 0, 0⟩, 200,
              ⟨2024, 5, 1, 0, 0, 0, 0⟩, none⟩]⟩).2.budgets.filter fun b =>
        b.userId == 7 && b.categoryId == some 3 &&
          b.periodStart == (⟨2024, 6, 1, 0, 0, 0, 0⟩ : Instant)).length = 2 := by
  constructor <;> decide

/-- C1 (amended): the create path does enforce
one-budget-per-(userId, categoryId, periodStart) with an explicit 409
conflict check before the insert; the update path checks only
(userId, categoryId) — ignoring `periodStart` — and only when a non-null
`categoryId` lands in the `$set` payload, and runs no conflict check at all
when neither `categoryId` nor `category` is among the updated fields. -/
theorem budget_uniqueness_conflict_checks (uid cid freshId bid c : Nat)
    (category : Option String) (pd now : Instant) (amount : ℚ) (db : Db)
    (updates : BudgetUpdates) (p : BudgetSetPayload) :
    ((∃ b ∈ db.budgets, b.userId = uid ∧ b.categoryId = some cid ∧
        b.periodStart = pd.monthStart) →
      (∃ cat ∈ db.categories, cat.id = cid ∧
        (cat.userId = some uid ∨ cat.userId = none)) →
      createBudgetImpl uid (some cid) category (some pd) amount now db freshId =
        (⟨409, some "budget_exists", none⟩, db)) ∧
    (resolveBudgetUpdates uid updates db = .ok p →
      p.categoryId = some (some c) →
      updates ≠ {} →
      (∃ b ∈ db.budgets, b.id ≠ bid ∧ b.userId = uid ∧ b.categoryId = some c) →
      updateBudgetImpl uid bid updates now db =
        (⟨409, some "budget_exists", none⟩, db)) ∧
    (updates.categoryId = none → updates.category = none →
      (updateBudgetImpl uid bid updates now db).1.status ≠ 409) := by
  refine ⟨?_, ?_, ?_⟩
  · rintro ⟨b, hb, hbu, hbc, hbp⟩ ⟨cat, hcat, hcid, hscope⟩
    unfold createBudgetImpl
    have hfind : (db.categories.find? fun c =>
        c.id == cid && (c.userId == some uid || c.userId == none)).isSome := by
      rw [List.find?_isSome]
      refine ⟨cat, hcat, ?_⟩
      rw [Bool.and_eq_true, Bool.or_eq_true, beq_iff_eq]
      refine ⟨hcid, ?_⟩
      rcases hscope with h | h <;> simp [h]
    obtain ⟨v, hv⟩ := Option.isSome_iff_exists.mp hfind
    have hconf : (db.budgets.any fun b =>
        b.userId == uid && b.categoryId == some cid &&
          b.periodStart == pd.monthStart) = true := by
      rw [List.any_eq_true]
      exact ⟨b, hb, by simp [hbu, hbc, hbp]⟩
    simp only [hv, hconf, if_true]
  · intro hres hpc hne hclash
    unfold updateBudgetImpl
    rw [if_neg hne]
    simp only [hres]
    have hclashb : budgetClash uid bid (mergePeriod updates p) db = true := by
      have hcid : (mergePeriod updates p).categoryId = some (some c) := by
        unfold mergePeriod
        cases updates.periodStart <;> simpa using hpc
      unfold budgetClash
      rw [hcid, List.any_eq_true]
      obtain ⟨b, hb, hbne, hbu, hbc⟩ := hclash
      exact ⟨b, hb, by simp [hbne, hbu, hbc]⟩
    rw [if_pos hclashb]
  · intro hcid hcat
    unfold updateBudgetImpl
    by_cases hne : updates = {}
    · rw [if_pos hne]
      simp
    · rw [if_neg hne]
      have hres : resolveBudgetUpdates uid updates db = .ok { amount := updates.amount } := by
        unfold resolveBudgetUpdates
        rw [hcid, hcat]
      simp only [hres]
      have hnoclash : budgetClash uid bid
          (mergePeriod updates { amount := updates.amount }) db = false := by
        unfold budgetClash mergePeriod
        cases updates.periodStart <;> rfl
      rw [hnoclash]
      by_cases htarget : (db.budgets.any fun b => b.id == bid && b.userId == uid) = true
      · simp only [Bool.false_eq_true, if_false, if_pos htarget]
        simp
      · simp only [Bool.false_eq_true, if_false, if_neg htarget]
        simp

/-! ## C9: nullability of a budget's categoryId -/

/-- C9 counterexample: the create path does not accept an absent/null
`categoryId` — it rejects it with `400 missing_category` ("budgets must be
for a category") instead of storing an uncategorized budget. -/
theorem createBudget_rejects_null_category :
    (createBudgetImpl 7 none none (some ⟨2024, 5, 15, 0, 0, 0, 0⟩) 100
        ⟨2024, 5, 15, 0, 0, 0, 0⟩ ⟨[⟨3, "Food", none, some 7⟩], [], []⟩ 42).1 =
      ⟨400, some "missing_category", none⟩ := rfl

/-- C9 (amended): the stored `categoryId` is nullable and the update path
accepts an explicit `null`, storing the budget as "Uncategorized"; but the
create path rejects a missing/null `categoryId` with `400 missing_category`
and leaves the state unchanged. -/
theorem budget_categoryId_nullability (uid bid : Nat) (updates : BudgetUpdates)
    (now : Instant) (db : Db)
    (hnull : updates.categoryId = some none)
    (hex : (db.budgets.any fun b => b.id == bid && b.userId == uid) = true) :
    (∀ (uid' : Nat) (category : Option String) (ps : Option Instant) (amount : ℚ)
        (now' : Instant) (db' : Db) (freshId : Nat),
      createBudgetImpl uid' none category ps amount now' db' freshId =
        (⟨400, some "missing_category", none⟩, db')) ∧
    (updateBudgetImpl uid bid updates now db).1.status = 200 ∧
    ∃ b ∈ (updateBudgetImpl uid bid updates now db).2.budgets,
      b.id = bid ∧ b.userId = uid ∧ b.categoryId = none ∧
        b.category = "Uncategorized" := by
  have hne : updates ≠ {} := by
    intro h
    rw [h] at hnull
    simp at hnull
  have hres : resolveBudgetUpdates uid updates db =
      .ok { amount := updates.amount, categoryId := some none
            category := some "Uncategorized" } := by
    unfold resolveBudgetUpdates
    rw [hnull]
  have hpc : (mergePeriod updates
      { amount := updates.amount, categoryId := some none
        category := some "Uncategorized" }).categoryId = some none := by
    unfold mergePeriod
    cases updates.periodStart <;> rfl
  have hnoclash : budgetClash uid bid (mergePeriod updates
      { amount := updates.amount, categoryId := some none
        category := some "Uncategorized" }) db = false := by
    unfold budgetClash
    rw [hpc]
  refine ⟨fun _ _ _ _ _ _ _ => rfl, ?_⟩
  unfold updateBudgetImpl
  rw [if_neg hne]
  simp only [hres, hnoclash, Bool.false_eq_true, if_false, if_pos hex]
  refine ⟨trivial, ?_⟩
  obtain ⟨y, hy, hpy, hmem⟩ := updateFirst_hits (f := applyBudgetSet (mergePeriod updates
      { amount := updates.amount, categoryId := some none
        category := some "Uncategorized" }) now) hex
  refine ⟨applyBudgetSet _ now y, hmem, ?_⟩
  rw [Bool.and_eq_true, beq_iff_eq, beq_iff_eq] at hpy
  have hcat' : (mergePeriod updates
      { amount := updates.amount, categoryId := some none
        category := some "Uncategorized" }).category = some "Uncategorized" := by
    unfold mergePeriod
    cases updates.periodStart <;> rfl
  refine ⟨hpy.1, hpy.2, ?_, ?_⟩
  · show ((mergePeriod updates _).categoryId.getD y.categoryId) = none
    rw [hpc]
    rfl
  · show ((mergePeriod updates _).category.getD y.category) = "Uncategorized"
    rw [hcat']
    rfl

/-- C9 witness. -/
theorem budget_categoryId_nullability_witness :
    ((⟨[], [],
        [⟨1, 7, some 3, "Food", ⟨2024, 5, 1, 0, 0, 0, 0⟩, 100,
            ⟨2024, 5, 1, 0, 0, 0, 0⟩, none⟩]⟩ : Db).budgets.any fun b =>
      b.id == 1 && b.userId == 7) = true ∧
    ((updateBudgetImpl 7 1 { categoryId := some none } ⟨2024, 6, 1, 0, 0, 0, 0⟩
        ⟨[], [],
          [⟨1, 7, some 3, "Food", ⟨2024, 5, 1, 0, 0, 0, 0⟩, 100,
              ⟨2024, 5, 1, 0, 0, 0, 0⟩, none⟩]⟩).1.status = 200 ∧
      ∃ b ∈ (updateBudgetImpl 7 1 { categoryId := some none } ⟨2024, 6, 1, 0, 0, 0, 0⟩
          ⟨[], [],
            [⟨1, 7, some 3, "Food", ⟨2024, 5, 1, 0, 0, 0, 0⟩, 100,
                ⟨2024, 5, 1, 0, 0, 0, 0⟩, none⟩]⟩).2.budgets,
        b.id = 1 ∧ b.userId = 7 ∧ b.categoryId = none ∧
          b.category = "Uncategorized") :=
  ⟨by decide,
    ((budget_categoryId_nullability 7 1 { categoryId := some none }
        ⟨2024, 6, 1, 0, 0, 0, 0⟩ _ rfl (by decide)).2)⟩

/-! ## C7: periodStart canonicalization -/

theorem resolveBudgetUpdates_periodStart {uid : Nat} {updates : BudgetUpdates}
    {db : Db} {p : BudgetSetPayload}
    (h : resolveBudgetUpdates uid updates db = .ok p) : p.periodStart = none := by
  unfold resolveBudgetUpdates at h
  rcases hc : updates.categoryId with _ | (_ | c)
  · simp only [hc] at h
    rcases hn : updates.category with _ | nm
    · simp only [hn, Except.ok.injEq] at h
      rw [← h]
    · simp only [hn] at h
      rcases hfind : ((db.categories.find? fun cat =>
            cat.name == nm && cat.userId == some uid).orElse fun _ =>
          db.categories.find? fun cat => cat.name == nm && cat.userId == none) with
        _ | cat
      · simp only [hfind, Except.ok.injEq] at h
        rw [← h]
      · simp only [hfind, Except.ok.injEq] at h
        rw [← h]
  · simp only [hc, Except.ok.injEq] at h
    rw [← h]
  · simp only [hc] at h
    rcases hfind : db.categories.find? fun cat =>
        cat.id == c && (cat.userId == some uid || cat.userId == none) with _ | cat
    · rw [hfind] at h
      exact Except.noConfusion h
    · simp only [hfind, Except.ok.injEq] at h
      rw [← h]

/-- C7: every budget operation stores only canonical first-of-month UTC
midnight `periodStart`s: a supplied date is replaced by the month start
before persisting on both the create and the update path, and if every
stored budget has a canonical `periodStart`, the same holds after any
create, update, or delete. -/
theorem budget_periodStart_canonicalized (uid bid freshId : Nat)
    (categoryId : Option Nat) (category : Option String) (ps : Option Instant)
    (amount : ℚ) (now : Instant) (db : Db) (updates : BudgetUpdates)
    (hdb : ∀ b ∈ db.budgets, b.periodStart.monthStart = b.periodStart) :
    (∀ pd, ps = some pd →
      ∀ b ∈ (createBudgetImpl uid categoryId category ps amount now db freshId).2.budgets,
        b ∈ db.budgets ∨ b.periodStart = pd.monthStart) ∧
    (∀ b ∈ (createBudgetImpl uid categoryId category ps amount now db freshId).2.budgets,
      b.periodStart.monthStart = b.periodStart) ∧
    (∀ pd, updates.periodStart = some pd →
      ∀ b ∈ (updateBudgetImpl uid bid updates now db).2.budgets,
        b ∈ db.budgets ∨ b.periodStart = pd.monthStart) ∧
    (∀ b ∈ (updateBudgetImpl uid bid updates now db).2.budgets,
      b.periodStart.monthStart = b.periodStart) ∧
    (∀ b ∈ (deleteBudgetImpl uid bid db).2.budgets,
      b.periodStart.monthStart = b.periodStart) := by
  have hcreate : ∀ b ∈ (createBudgetImpl uid categoryId category ps amount now db
      freshId).2.budgets, b ∈ db.budgets ∨
        ∃ pd, ps = some pd ∧ b.periodStart = pd.monthStart := by
    intro b hb
    unfold createBudgetImpl at hb
    rcases categoryId with _ | cid
    · exact Or.inl hb
    · rcases hfind : db.categories.find? fun c =>
          c.id == cid && (c.userId == some uid || c.userId == none) with _ | cat
      · simp only [hfind] at hb
        exact Or.inl hb
      · simp only [hfind] at hb
        rcases ps with _ | pd
        · exact Or.inl hb
        · by_cases hconf : (db.budgets.any fun b =>
              b.userId == uid && b.categoryId == some cid &&
                b.periodStart == pd.monthStart) = true
          · simp only [if_pos hconf] at hb
            exact Or.inl hb
          · simp only [if_neg hconf] at hb
            rcases List.mem_append.mp hb with h | h
            · exact Or.inl h
            · refine Or.inr ⟨pd, rfl, ?_⟩
              rcases List.mem_singleton.mp h with rfl
              rfl
  have hupdate : ∀ b ∈ (updateBudgetImpl uid bid updates now db).2.budgets,
      b ∈ db.budgets ∨ ∃ y ∈ db.budgets, ∃ p : BudgetSetPayload,
        resolveBudgetUpdates uid updates db = .ok p ∧
          b = applyBudgetSet (mergePeriod updates p) now y := by
    intro b hb
    unfold updateBudgetImpl at hb
    by_cases hne : updates = {}
    · rw [if_pos hne] at hb
      exact Or.inl hb
    · rw [if_neg hne] at hb
      rcases hres : resolveBudgetUpdates uid updates db with r | p
      · simp only [hres] at hb
        exact Or.inl hb
      · simp only [hres] at hb
        by_cases hclash : budgetClash uid bid (mergePeriod updates p) db = true
        · rw [if_pos hclash] at hb
          exact Or.inl hb
        · rw [if_neg hclash] at hb
          by_cases htarget : (db.budgets.any fun b =>
              b.id == bid && b.userId == uid) = true
          · rw [if_pos htarget] at hb
            rcases mem_updateFirst hb with h | ⟨y, hy, _, rfl⟩
            · exact Or.inl h
            · exact Or.inr ⟨y, hy, p, rfl, rfl⟩
          · rw [if_neg htarget] at hb
            exact Or.inl hb
  refine ⟨?_, ?_, ?_, ?_, ?_⟩
  · intro pd hpd b hb
    rcases hcreate b hb with h | ⟨pd', hpd', hp⟩
    · exact Or.inl h
    · rw [hpd] at hpd'
      rcases Option.some_injective _ hpd' with rfl
      exact Or.inr hp
  · intro b hb
    rcases hcreate b hb with h | ⟨pd, _, hp⟩
    · exact hdb b h
    · rw [hp]
      rfl
  · intro pd hpd b hb
    rcases hupdate b hb with h | ⟨y, hy, p, hres, rfl⟩
    · exact Or.inl h
    · refine Or.inr ?_
      show ((mergePeriod updates p).periodStart.getD y.periodStart) = pd.monthStart
      unfold mergePeriod
      rw [hpd]
      rfl
  · intro b hb
    rcases hupdate b hb with h | ⟨y, hy, p, hres, rfl⟩
    · exact hdb b h
    · show (((mergePeriod updates p).periodStart.getD y.periodStart)).monthStart =
        ((mergePeriod updates p).periodStart.getD y.periodStart)
      unfold mergePeriod
      rcases updates.periodStart with _ | pd
      · rw [resolveBudgetUpdates_periodStart hres, Option.getD_none]
        exact hdb y hy
      · rfl
  · intro b hb
    unfold deleteBudgetImpl at hb
    by_cases h : (db.budgets.any fun b => b.id == bid && b.userId == uid) = true
    · rw [if_pos h] at hb
      exact hdb b (mem_removeFirst hb)
    · rw [if_neg h] at hb
      exact hdb b hb


/-- C7 witness. -/
theorem budget_periodStart_canonicalized_witness :
    (∀ b ∈ (⟨[⟨3, "Food", none, some 7⟩], [],
        [⟨1, 7, some 3, "Food", ⟨2024, 5, 1, 0, 0, 0, 0⟩, 100,
            ⟨2024, 5, 1, 0, 0, 0, 0⟩, none⟩]⟩ : Db).budgets,
      b.periodStart.monthStart = b.periodStart) ∧
    (∀ b ∈ (deleteBudgetImpl 7 1
        ⟨[⟨3, "Food", none, some 7⟩], [],
          [⟨1, 7, some 3, "Food", ⟨2024, 5, 1, 0, 0, 0, 0⟩, 100,
              ⟨2024, 5, 1, 0, 0, 0, 0⟩, none⟩]⟩).2.budgets,
      b.periodStart.monthStart = b.periodStart) :=
  ⟨by decide,
    (budget_periodStart_canonicalized 7 1 42 (some 3) none
      (some ⟨2024, 7, 9, 13, 30, 0, 0⟩) 100 ⟨2024, 7, 9, 13, 30, 0, 0⟩
      ⟨[⟨3, "Food", none, some 7⟩], [],
        [⟨1, 7, some 3, "Food", ⟨2024, 5, 1, 0, 0, 0, 0⟩, 100,
            ⟨2024, 5, 1, 0, 0, 0, 0⟩, none⟩]⟩
      { periodStart := some ⟨2024, 7, 9, 13, 30, 0, 0⟩ } (by decide)).2.2.2.2⟩

/-! ## C3: inclusive `to` bound of the category report and CSV export -/

theorem Instant.ltb_of_year_lt {a b : Instant} (h : a.year < b.year) :
    a.ltb b = true := by
  unfold Instant.ltb
  rw [if_pos (Int.ne_of_lt h)]
  exact decide_eq_true h

theorem Instant.ltb_of_month_lt {a b : Instant} (hy : a.year = b.year)
    (h : a.month < b.month) : a.ltb b = true := by
  unfold Instant.ltb
  rw [if_neg (not_not_intro hy), if_pos (Nat.ne_of_lt h)]
  exact decide_eq_true h

theorem Instant.ltb_of_day_lt {a b : Instant} (hy : a.year = b.year)
    (hm : a.month = b.month) (h : a.day < b.day) : a.ltb b = true := by
  unfold Instant.ltb
  rw [if_neg (not_not_intro hy), if_neg (not_not_intro hm),
    if_pos (Nat.ne_of_lt h)]
  exact decide_eq_true h

/-- C3: the category report and the CSV export share the range filter
`rangeMatch`, whose upper bound is `advanceMidnightEnd`.  When `to` falls at
00:00:00 (hours, minutes, seconds), the bound advances one day, so every
expense of the user dated anywhere on the `to` day (and at or after `from`)
matches; otherwise the given instant itself is the exclusive upper bound. -/
theorem report_range_to_inclusive (uid : Nat) (fromDate toDate : Instant) :
    (toDate.hour = 0 ∧ toDate.minute = 0 ∧ toDate.second = 0 →
      ∀ e : Expense, e.userId = uid →
        e.date.year = toDate.year → e.date.month = toDate.month →
        e.date.day = toDate.day → fromDate.leb e.date = true →
        rangeMatch uid fromDate toDate e = true) ∧
    (¬(toDate.hour = 0 ∧ toDate.minute = 0 ∧ toDate.second = 0) →
      advanceMidnightEnd toDate = toDate) := by
  constructor
  · rintro ⟨hh, hm, hs⟩ e hu hy hmo hd hle
    unfold rangeMatch
    have hend : advanceMidnightEnd toDate = toDate.nextUTCDay := by
      unfold advanceMidnightEnd
      rw [if_pos ⟨hh, hm, hs⟩]
    rw [hend, Bool.and_eq_true, Bool.and_eq_true]
    refine ⟨⟨by rw [beq_iff_eq]; exact hu, hle⟩, ?_⟩
    unfold Instant.nextUTCDay
    by_cases hday : toDate.day + 1 ≤ daysInMonth toDate.year toDate.month
    · rw [if_pos hday]
      exact Instant.ltb_of_day_lt hy hmo (by rw [hd]; exact Nat.lt_succ_self _)
    · rw [if_neg hday]
      by_cases hmon : toDate.month + 1 ≤ 12
      · rw [if_pos hmon]
        exact Instant.ltb_of_month_lt hy (by rw [hmo]; exact Nat.lt_succ_self _)
      · rw [if_neg hmon]
        exact Instant.ltb_of_year_lt (by rw [hy]; exact Int.lt_succ _)
  · intro h
    unfold advanceMidnightEnd
    rw [if_neg h]

/-- C3 witness: `to` = 2024-05-31T00:00:00 (midnight) includes an
expense dated 2024-05-31T18:45:00. -/
theorem report_range_to_inclusive_witness :
    ((⟨2024, 5, 31, 0, 0, 0, 0⟩ : Instant).hour = 0 ∧
      (⟨2024, 5, 31, 0, 0, 0, 0⟩ : Instant).minute = 0 ∧
      (⟨2024, 5, 31, 0, 0, 0, 0⟩ : Instant).second = 0) ∧
    rangeMatch 7 ⟨2024, 5, 1, 0, 0, 0, 0⟩ ⟨2024, 5, 31, 0, 0, 0, 0⟩
      ⟨1, 7, 5, "USD", "x", "Food", CatRef.oid 3, ⟨2024, 5, 31, 18, 45, 0, 0⟩⟩ = true :=
  ⟨by decide,
    (report_range_to_inclusive 7 ⟨2024, 5, 1, 0, 0, 0, 0⟩
        ⟨2024, 5, 31, 0, 0, 0, 0⟩).1 (by decide)
      ⟨1, 7, 5, "USD", "x", "Food", CatRef.oid 3, ⟨2024, 5, 31, 18, 45, 0, 0⟩⟩
      rfl rfl rfl rfl (by decide)⟩

/-! ## C4: CSV export row limit -/

/-- C4: the CSV export rejects with a 413 error (no CSV body) whenever
more than `MAX_ROWS` = 5000 expenses of the user match the range, and
returns the CSV file (status 200 with a body) whenever at most 5000
match. -/
theorem csv_export_row_limit (uid : Nat) (fromDate toDate : Instant)
    (es : List Expense) :
    ((es.filter (rangeMatch uid fromDate toDate)).length > MAX_ROWS →
      expensesExportImpl uid fromDate toDate "csv" es =
        ⟨413, some "too_large", none⟩) ∧
    ((es.filter (rangeMatch uid fromDate toDate)).length ≤ MAX_ROWS →
      (expensesExportImpl uid fromDate toDate "csv" es).status = 200 ∧
      (expensesExportImpl uid fromDate toDate "csv" es).error = none ∧
      (expensesExportImpl uid fromDate toDate "csv" es).body.isSome = true) := by
  have hfmt : ¬(("csv" : String) ≠ "csv") := by simp
  have hcount : (((es.filter (rangeMatch uid fromDate toDate)).mergeSort fun a b =>
      b.date.leb a.date).take (MAX_ROWS + 1)).length =
      min (MAX_ROWS + 1) (es.filter (rangeMatch uid fromDate toDate)).length := by
    rw [List.length_take, List.length_mergeSort]
  constructor
  · intro h
    unfold expensesExportImpl
    rw [if_neg hfmt, if_pos]
    rw [hcount]
    unfold MAX_ROWS at h ⊢
    omega
  · intro h
    unfold expensesExportImpl
    rw [if_neg hfmt, if_neg]
    · exact ⟨rfl, rfl, rfl⟩
    · rw [hcount]
      unfold MAX_ROWS at h ⊢
      omega

/-- C4 witness: an empty match set (0 ≤ 5000 rows) yields the CSV
response. -/
theorem csv_export_row_limit_witness :
    (([] : List Expense).filter
        (rangeMatch 7 ⟨2024, 5, 1, 0, 0, 0, 0⟩ ⟨2024, 5, 31, 0, 0, 0, 0⟩)).length ≤
      MAX_ROWS ∧
    ((expensesExportImpl 7 ⟨2024, 5, 1, 0, 0, 0, 0⟩ ⟨2024, 5, 31, 0, 0, 0, 0⟩
        "csv" []).status = 200 ∧
      (expensesExportImpl 7 ⟨2024, 5, 1, 0, 0, 0, 0⟩ ⟨2024, 5, 31, 0, 0, 0, 0⟩
        "csv" []).error = none ∧
      (expensesExportImpl 7 ⟨2024, 5, 1, 0, 0, 0, 0⟩ ⟨2024, 5, 31, 0, 0, 0, 0⟩
        "csv" []).body.isSome = true) :=
  ⟨by decide,
    (csv_export_row_limit 7 ⟨2024, 5, 1, 0, 0, 0, 0⟩ ⟨2024, 5, 31, 0, 0, 0, 0⟩
      []).2 (by decide)⟩


/-! ## Trends machinery (C2, C8) -/

theorem mapGet_mapSet_self (m : List ((Int × Nat) × TrendBucket)) (k : Int × Nat)
    (v : TrendBucket) : mapGet (mapSet m k v) k = some v := by
  induction m with
  | nil => simp [mapSet, mapGet]
  | cons hd tl ih =>
      obtain ⟨k0, v0⟩ := hd
      by_cases h : (k0 == k) = true
      · simp [mapSet, h, mapGet]
      · simp [mapSet, h, mapGet, ih]

theorem mapGet_mapSet_ne (m : List ((Int × Nat) × TrendBucket)) (k k' : Int × Nat)
    (v : TrendBucket) (hne : k' ≠ k) : mapGet (mapSet m k v) k' = mapGet m k' := by
  have hkk : (k == k') = false := beq_eq_false_iff_ne.mpr (Ne.symm hne)
  induction m with
  | nil => simp [mapSet, mapGet, hkk]
  | cons hd tl ih =>
      obtain ⟨k0, v0⟩ := hd
      by_cases h : (k0 == k) = true
      · have hk0 : k0 = k := by simpa [beq_iff_eq] using h
        subst hk0
        simp [mapSet, h, mapGet, hkk]
      · simp [mapSet, h, mapGet, ih]

theorem addCurrency_month (r : AggRow) (b : TrendBucket) :
    (addCurrency r b).month = b.month := by
  unfold addCurrency
  by_cases h1 : (r.currency == "USD") = true
  · rw [if_pos h1]
  · rw [if_neg h1]
    by_cases h2 : (r.currency == "NGN") = true
    · rw [if_pos h2]
    · rw [if_neg h2]

theorem mapGet_foldl_month (rows : List AggRow) :
    ∀ (acc : List ((Int × Nat) × TrendBucket)),
      (∀ k b, mapGet acc k = some b → b.month = k) →
      ∀ k b, mapGet (rows.foldl trendFold acc) k = some b → b.month = k := by
  induction rows with
  | nil => intro acc hacc k b h; exact hacc k b h
  | cons r rest ih =>
      intro acc hacc k b h
      rw [List.foldl_cons] at h
      refine ih (trendFold acc r) ?_ k b h
      intro k' b' h'
      unfold trendFold at h'
      by_cases hk : k' = (r.year, r.month)
      · subst hk
        rw [mapGet_mapSet_self] at h'
        cases h'
        rw [addCurrency_month]
        rcases hget : mapGet acc (r.year, r.month) with _ | b0
        · simp [hget]
        · simp only [hget, Option.getD_some]
          exact hacc _ b0 hget
      · rw [mapGet_mapSet_ne _ _ _ _ hk] at h'
        exact hacc k' b' h'

theorem mapGet_foldl_none (rows : List AggRow) :
    ∀ (acc : List ((Int × Nat) × TrendBucket)) (k : Int × Nat),
      (∀ r ∈ rows, (r.year, r.month) ≠ k) →
      mapGet (rows.foldl trendFold acc) k = mapGet acc k := by
  induction rows with
  | nil => intro acc k _; rfl
  | cons r rest ih =>
      intro acc k h
      rw [List.foldl_cons, ih _ _ fun r' hr' => h r' (List.mem_cons_of_mem _ hr')]
      unfold trendFold
      exact mapGet_mapSet_ne _ _ _ _ (h r (List.mem_cons_self _ _)).symm

/-- The bucket emitted for key `k` carries `k` as its month, whether the key
was found in the map or zero-filled. -/
theorem trendMap_bucket_month (es : List Expense) (k : Int × Nat) :
    ((mapGet (trendMap es) k).getD ⟨k, 0, 0⟩).month = k := by
  unfold trendMap
  rcases hget : mapGet ((aggRows es).foldl trendFold []) k with _ | b
  · simp [hget]
  · simp only [hget, Option.getD_some]
    refine mapGet_foldl_month (aggRows es) [] ?_ k b hget
    intro k' b' h'
    simp [mapGet] at h'

theorem aggRows_mem {es : List Expense} {r : AggRow} (h : r ∈ aggRows es) :
    ∃ e ∈ es, e.date.year = r.year ∧ e.date.month = r.month := by
  unfold aggRows at h
  rw [List.mem_mergeSort] at h
  obtain ⟨k, hk, rfl⟩ := List.mem_map.mp h
  rw [List.mem_dedup] at hk
  obtain ⟨e, he, rfl⟩ := List.mem_map.mp hk
  exact ⟨e, he, rfl, rfl⟩

theorem jsTrunc_intCast (z : Int) : jsTrunc ((z : Int) : ℚ) = z := by
  unfold jsTrunc
  by_cases h : (0 : ℚ) ≤ ((z : Int) : ℚ)
  · rw [if_pos h, Int.floor_intCast]
  · rw [if_neg h, Int.ceil_intCast]

theorem loopLen_intCast (m : Int) : loopLen (.num ((m : Int) : ℚ)) = m.toNat := by
  unfold loopLen
  exact Nat.ceil_intCast m

theorem effMonths_num (v : ℚ) :
    effMonths (some (.num v)) = .num (max 1 (min 24 v)) := rfl

theorem effMonths_none_eq : effMonths none = .num 6 := by decide

theorem effMonths_intCast (k : Int) :
    effMonths (some (.num ((k : Int) : ℚ))) =
      .num (((max 1 (min 24 k) : Int)) : ℚ) := by
  rw [effMonths_num]
  congr 1
  push_cast
  rfl

theorem trendStartKey_intCast (now : Instant) (m : Int) :
    trendStartKey now ((m : Int) : ℚ) =
      normKey (now.year * 12 + ((now.month : Int) - 1) - (m - 1)) := by
  unfold trendStartKey normMonth
  have h : (now.month : ℚ) - 1 - (((m : Int) : ℚ) - 1) =
      ((((now.month : Int) - 1 - (m - 1)) : Int) : ℚ) := by
    push_cast
    ring
  rw [h, jsTrunc_intCast]
  congr 1
  ring

theorem normKey_shift (t i : Int) :
    normMonth (normKey t).1 (((normKey t).2 : Int) - 1 + i) = normKey (t + i) := by
  unfold normMonth
  congr 1
  simp only [normKey]
  omega

theorem normKey_self (y : Int) (mo : Nat) (h1 : 1 ≤ mo) (h2 : mo ≤ 12) :
    normKey (y * 12 + ((mo : Int) - 1)) = (y, mo) := by
  unfold normKey
  rw [Prod.mk.injEq]
  constructor <;> omega

/-- Reduction of the trends handler for an integer-valued effective months
count `m`: the series is the dense map over the window keys. -/
theorem trends_spec (uid : Nat) (m : Int) (now : Instant) (es : List Expense)
    (raw : Option JSNum) (hm : effMonths raw = .num ((m : Int) : ℚ)) :
    reportsTrendsImpl uid raw now es =
      (List.range m.toNat).map fun (i : Nat) =>
        (mapGet (trendMap (trendMatched uid
            (keyStart (normKey (now.year * 12 + ((now.month : Int) - 1) - (m - 1)))) es))
          (normKey (now.year * 12 + ((now.month : Int) - 1) - (m - 1) + i))).getD
          ⟨normKey (now.year * 12 + ((now.month : Int) - 1) - (m - 1) + i), 0, 0⟩ := by
  unfold reportsTrendsImpl
  simp only [hm, loopLen_intCast, trendStartKey_intCast]
  congr 1
  funext i
  rw [normKey_shift]


/-! ## C8: months parameter default and clamp -/

/-- C8 counterexample: a supplied non-numeric `months` (e.g. `?months=abc`,
which `Number()` turns into NaN) is not clamped into 1..24 — the
`Math.max/Math.min` chain propagates NaN and the handler returns an empty
series instead of a 1..24-month window. -/
theorem trends_months_nan_unclamped :
    effMonths (some JSNum.nan) = JSNum.nan ∧
    reportsTrendsImpl 7 (some JSNum.nan) ⟨2024, 5, 15, 10, 30, 0, 0⟩
      [⟨1, 7, 5, "USD", "x", "Food", CatRef.oid 3, ⟨2024, 5, 2, 1, 0, 0, 0⟩⟩] = [] :=
  ⟨rfl, rfl⟩

/-- C8 (amended): an absent `months` defaults to 6; a supplied numeric
value is clamped to at least 1 and at most 24, and for an integer parameter
the series has the clamped number of entries, starting `months - 1` UTC
months before the current month; a non-numeric value becomes NaN and yields
an empty series instead. -/
theorem trends_months_default_and_clamp (v : ℚ) (k : Int) (uid : Nat)
    (now : Instant) (es : List Expense) :
    effMonths none = JSNum.num 6 ∧
    effMonths (some (JSNum.num v)) = JSNum.num (max 1 (min 24 v)) ∧
    (1 : ℚ) ≤ max 1 (min 24 v) ∧ max 1 (min 24 v) ≤ (24 : ℚ) ∧
    (reportsTrendsImpl uid (some (JSNum.num ((k : Int) : ℚ))) now es).length =
      (max 1 (min 24 k)).toNat ∧
    ∀ h : 0 < (reportsTrendsImpl uid (some (JSNum.num ((k : Int) : ℚ))) now es).length,
      ((reportsTrendsImpl uid (some (JSNum.num ((k : Int) : ℚ))) now es).get
          ⟨0, h⟩).month =
        normKey (now.year * 12 + ((now.month : Int) - 1) - (max 1 (min 24 k) - 1)) := by
  have hspec := trends_spec uid (max 1 (min 24 k)) now es _ (effMonths_intCast k)
  refine ⟨effMonths_none_eq, rfl, le_max_left _ _,
    max_le (by norm_num) (min_le_left _ _), ?_, ?_⟩
  · rw [hspec]
    simp
  · intro h
    rw [List.get_eq_getElem]
    simp only [hspec, List.getElem_map, List.getElem_range]
    simpa using trendMap_bucket_month
      (trendMatched uid (keyStart (normKey (now.year * 12 + ((now.month : Int) - 1) -
        (max 1 (min 24 k) - 1)))) es)
      (normKey (now.year * 12 + ((now.month : Int) - 1) - (max 1 (min 24 k) - 1) + ((0 : Nat) : Int)))

/-- C8 witness. -/
theorem trends_months_default_and_clamp_witness :
    0 < (reportsTrendsImpl 7 (some (JSNum.num ((6 : Int) : ℚ)))
        ⟨2024, 5, 15, 10, 30, 0, 0⟩ []).length ∧
    ((reportsTrendsImpl 7 (some (JSNum.num ((6 : Int) : ℚ)))
        ⟨2024, 5, 15, 10, 30, 0, 0⟩ []).get ⟨0, by decide⟩).month =
      normKey ((⟨2024, 5, 15, 10, 30, 0, 0⟩ : Instant).year * 12 +
        (((⟨2024, 5, 15, 10, 30, 0, 0⟩ : Instant).month : Int) - 1) -
        (max 1 (min 24 (6 : Int)) - 1)) :=
  ⟨by decide,
    (trends_months_default_and_clamp 0 6 7 ⟨2024, 5, 15, 10, 30, 0, 0⟩ []).2.2.2.2.2
      (by decide)⟩

/-! ## C2: dense zero-filled trend series -/

/-- C2: with the effective months count m — the clamped integer
parameter, 6 when absent — the trends series has exactly m entries; entry i
covers the UTC month `m - 1 - i` months before the current one (so the
series ascends month by month and ends at the current month); and every
window month with no matching expense aggregation data appears with
`totalUSD = 0` and `totalNGN = 0`. -/
theorem trends_dense_zero_filled_series (uid : Nat) (monthsParam : Option Int)
    (now : Instant) (es : List Expense) (hv : now.Valid) :
    (reportsTrendsImpl uid (monthsParam.map fun (k : Int) => JSNum.num (k : ℚ)) now es).length =
      (monthsParam.elim 6 fun k => max 1 (min 24 k)).toNat ∧
    (∀ (i : Nat) (h : i < (reportsTrendsImpl uid (monthsParam.map fun (k : Int) =>
        JSNum.num (k : ℚ)) now es).length),
      ((reportsTrendsImpl uid (monthsParam.map fun (k : Int) => JSNum.num (k : ℚ)) now es).get
          ⟨i, h⟩).month =
        normKey (now.year * 12 + ((now.month : Int) - 1) -
          ((monthsParam.elim 6 fun k => max 1 (min 24 k)) - 1) + i)) ∧
    (∀ h : (monthsParam.elim 6 fun k => max 1 (min 24 k)).toNat - 1 <
        (reportsTrendsImpl uid (monthsParam.map fun (k : Int) => JSNum.num (k : ℚ)) now es).length,
      ((reportsTrendsImpl uid (monthsParam.map fun (k : Int) => JSNum.num (k : ℚ)) now es).get
          ⟨(monthsParam.elim 6 fun k => max 1 (min 24 k)).toNat - 1, h⟩).month =
        (now.year, now.month)) ∧
    (∀ (i : Nat) (h : i < (reportsTrendsImpl uid (monthsParam.map fun (k : Int) =>
        JSNum.num (k : ℚ)) now es).length),
      (∀ e ∈ es, e.userId = uid →
        (keyStart (normKey (now.year * 12 + ((now.month : Int) - 1) -
          ((monthsParam.elim 6 fun k => max 1 (min 24 k)) - 1)))).leb e.date = true →
        (e.date.year, e.date.month) ≠
          normKey (now.year * 12 + ((now.month : Int) - 1) -
            ((monthsParam.elim 6 fun k => max 1 (min 24 k)) - 1) + i)) →
      ((reportsTrendsImpl uid (monthsParam.map fun (k : Int) => JSNum.num (k : ℚ)) now es).get
          ⟨i, h⟩).totalUSD = 0 ∧
      ((reportsTrendsImpl uid (monthsParam.map fun (k : Int) => JSNum.num (k : ℚ)) now es).get
          ⟨i, h⟩).totalNGN = 0) := by
  set M : Int := monthsParam.elim 6 fun k => max 1 (min 24 k) with hM
  have hm : effMonths (monthsParam.map fun (k : Int) => JSNum.num (k : ℚ)) =
      .num ((M : Int) : ℚ) := by
    cases monthsParam with
    | none =>
        rw [Option.map_none', effMonths_none_eq, hM]
        norm_num
    | some k =>
        rw [Option.map_some', hM]
        simp only [Option.elim_some]
        exact effMonths_intCast k
  have hm1 : 1 ≤ M := by
    rw [hM]
    cases monthsParam with
    | none => norm_num
    | some k => simp only [Option.elim_some]; exact le_max_left _ _
  have hspec := trends_spec uid M now es _ hm
  rw [hspec]
  have hmonth : ∀ (i : Nat) (h : i < ((List.range M.toNat).map fun (i : Nat) =>
      (mapGet (trendMap (trendMatched uid
          (keyStart (normKey (now.year * 12 + ((now.month : Int) - 1) - (M - 1)))) es))
        (normKey (now.year * 12 + ((now.month : Int) - 1) - (M - 1) + i))).getD
        ⟨normKey (now.year * 12 + ((now.month : Int) - 1) - (M - 1) + i), 0, 0⟩).length),
      (((List.range M.toNat).map fun (i : Nat) =>
        (mapGet (trendMap (trendMatched uid
            (keyStart (normKey (now.year * 12 + ((now.month : Int) - 1) - (M - 1)))) es))
          (normKey (now.year * 12 + ((now.month : Int) - 1) - (M - 1) + i))).getD
          ⟨normKey (now.year * 12 + ((now.month : Int) - 1) - (M - 1) + i), 0, 0⟩).get
        ⟨i, h⟩).month =
      normKey (now.year * 12 + ((now.month : Int) - 1) - (M - 1) + i) := by
    intro i h
    rw [List.get_eq_getElem, List.getElem_map, List.getElem_range]
    exact trendMap_bucket_month _ _
  refine ⟨by simp, hmonth, ?_, ?_⟩
  · intro h
    rw [hmonth _ h]
    have harg : now.year * 12 + ((now.month : Int) - 1) - (M - 1) +
        ((M.toNat - 1 : Nat) : Int) = now.year * 12 + ((now.month : Int) - 1) := by
      omega
    rw [harg]
    exact normKey_self now.year now.month hv.1 hv.2.1
  · intro i h hemp
    rw [List.get_eq_getElem, List.getElem_map, List.getElem_range]
    have hnone : mapGet (trendMap (trendMatched uid
        (keyStart (normKey (now.year * 12 + ((now.month : Int) - 1) - (M - 1)))) es))
        (normKey (now.year * 12 + ((now.month : Int) - 1) - (M - 1) + i)) = none := by
      unfold trendMap
      rw [mapGet_foldl_none]
      · rfl
      · intro r hr
        obtain ⟨e, he, hy, hmo⟩ := aggRows_mem hr
        unfold trendMatched at he
        rw [List.mem_filter] at he
        obtain ⟨hees, hbool⟩ := he
        rw [Bool.and_eq_true, beq_iff_eq] at hbool
        intro hkey
        exact hemp e hees hbool.1 hbool.2 (by rw [hy, hmo]; exact hkey)
    rw [hnone]
    exact ⟨rfl, rfl⟩

/-- C2 witness. -/
theorem trends_dense_zero_filled_series_witness :
    (⟨2024, 5, 15, 10, 30, 0, 0⟩ : Instant).Valid ∧
    (reportsTrendsImpl 0 ((none : Option Int).map fun (k : Int) => JSNum.num (k : ℚ))
        ⟨2024, 5, 15, 10, 30, 0, 0⟩ []).length =
      ((none : Option Int).elim 6 fun k => max 1 (min 24 k)).toNat :=
  ⟨by decide,
    (trends_dense_zero_filled_series 0 none ⟨2024, 5, 15, 10, 30, 0, 0⟩ [] (by decide)).1⟩

/-- C1 witness (for the amended theorem): the create path returns 409 on
a duplicate (userId, categoryId, periodStart) without touching the state. -/
theorem budget_uniqueness_conflict_checks_witness :
    (∃ b ∈ (⟨[⟨3, "Food", none, some 7⟩], [],
        [⟨1, 7, some 3, "Food", ⟨2024, 5, 1, 0, 0, 0, 0⟩, 100,
            ⟨2024, 5, 1, 0, 0, 0, 0⟩, none⟩]⟩ : Db).budgets,
      b.userId = 7 ∧ b.categoryId = some 3 ∧
        b.periodStart = Instant.monthStart ⟨2024, 5, 20, 8, 0, 0, 0⟩) ∧
    (∃ cat ∈ (⟨[⟨3, "Food", none, some 7⟩], [],
        [⟨1, 7, some 3, "Food", ⟨2024, 5, 1, 0, 0, 0, 0⟩, 100,
            ⟨2024, 5, 1, 0, 0, 0, 0⟩, none⟩]⟩ : Db).categories,
      cat.id = 3 ∧ (cat.userId = some 7 ∨ cat.userId = none)) ∧
    createBudgetImpl 7 (some 3) none (some ⟨2024, 5, 20, 8, 0, 0, 0⟩) 50
        ⟨2024, 6, 1, 0, 0, 0, 0⟩
        ⟨[⟨3, "Food", none, some 7⟩], [],
          [⟨1, 7, some 3, "Food", ⟨2024, 5, 1, 0, 0, 0, 0⟩, 100,
              ⟨2024, 5, 1, 0, 0, 0, 0⟩, none⟩]⟩ 42 =
      (⟨409, some "budget_exists", none⟩,
        ⟨[⟨3, "Food", none, some 7⟩], [],
          [⟨1, 7, some 3, "Food", ⟨2024, 5, 1, 0, 0, 0, 0⟩, 100,
              ⟨2024, 5, 1, 0, 0, 0, 0⟩, none⟩]⟩) :=
  ⟨by decide, by decide,
    (budget_uniqueness_conflict_checks 7 3 42 0 0 none ⟨2024, 5, 20, 8, 0, 0, 0⟩
        ⟨2024, 6, 1, 0, 0, 0, 0⟩ 50
        ⟨[⟨3, "Food", none, some 7⟩], [],
          [⟨1, 7, some 3, "Food", ⟨2024, 5, 1, 0, 0, 0, 0⟩, 100,
              ⟨2024, 5, 1, 0, 0, 0, 0⟩, none⟩]⟩ {} {}).1
      (by decide) (by decide)⟩

end ExpenseTracker
